import Mathlib

/-!
Verification of the multi-source conversation analytics pipeline
(backend/src/analyzers/conversation-analyzer.js, backend/src/parsers/jsonl-parser.js,
backend/src/server.js).

Shallow embedding conventions:
  - JavaScript objects holding conversation data become Lean structures; a field
    the source may omit becomes an Option.
  - JavaScript string truthiness (absent or empty string read as false) is
    modelled by jsStr.
  - ISO-8601 timestamp strings are modelled as natural numbers of milliseconds
    since the epoch; the source compares and subtracts timestamps only through
    Date conversion or lexicographic order of same-format ISO strings, both of
    which agree with the numeric order.
  - Counter dictionaries (counts[k] = (counts[k] || 0) + 1) are modelled as
    total functions with default 0 when only the final counts are observable,
    and as insertion-ordered association lists when the enumeration order of
    the keys is observable (sorting, top-N truncation).
  - JavaScript floating-point averages and ratios are modelled over ℚ;
    Math.round x is modelled as ⌊x + 1/2⌋ (exact for the magnitudes involved).
-/

/-- One entry of an assistant content array (items with a type tag and,
for tool calls, a name), as consumed by the analyzer. -/
structure Item where
  itemType : String
  name : Option String := none
deriving DecidableEq, Repr

/-- The value of msg.message.content: a plain string, an array of items,
or absent (msg.message or its content missing). -/
inductive MsgContent
  | str (s : String)
  | arr (items : List Item)
  | missing
deriving DecidableEq, Repr

/-- One message record of a normalized conversation. -/
structure Msg where
  type : String
  timestamp : Option Nat := none
  content : MsgContent := .missing
deriving DecidableEq, Repr

/-- One normalized conversation. -/
structure Conversation where
  conversationId : String
  project : Option String := none
  source : String := "main"
  platform : String := "claude"
  messages : List Msg
deriving DecidableEq, Repr

/-- JavaScript truthiness for an optional string: an absent or empty
string is falsy. -/
def jsStr (o : Option String) : Option String :=
  o.bind (fun s => if s = "" then none else some s)

/-- conv.project || 'unknown' (analyzeToolUsage, analyzeProjectActivity). -/
def projectName (c : Conversation) : String :=
  (jsStr c.project).getD "unknown"

/-- item.type === 'tool_use' && item.name (truthy name required). -/
def itemToolName (i : Item) : Option String :=
  if i.itemType = "tool_use" then jsStr i.name else none

/-- The tool names contributed by one message: tool_use items of an
assistant message whose content is an array (analyzeToolUsage inner loop). -/
def msgTools (m : Msg) : List String :=
  if m.type = "assistant" then
    match m.content with
    | .arr items => items.filterMap itemToolName
    | _ => []
  else []

/-- All tool names of one conversation, in message order. -/
def convTools (c : Conversation) : List String :=
  c.messages.flatMap msgTools

/-- counts[k] = (counts[k] || 0) + 1 on a total-function counter. -/
def bump (f : String → Nat) (k : String) : String → Nat :=
  fun x => if x = k then f x + 1 else f x

/-- Result shape of analyzeToolUsage: { overall, byProject }. -/
structure ToolUsage where
  overall : String → Nat
  byProject : String → String → Nat

/-- The inner forEach of analyzeToolUsage for one conversation with
project name p: each tool name bumps both counters. -/
def tuConv (p : String) (names : List String) (acc : ToolUsage) : ToolUsage :=
  names.foldl
    (fun acc n =>
      { overall := bump acc.overall n
        byProject := fun q => if q = p then bump (acc.byProject p) n else acc.byProject q })
    acc

/-- analyzeToolUsage: tool-use histogram overall and grouped by project
(conversation-analyzer.js lines 8-39). -/
def analyzeToolUsage (cs : List Conversation) : ToolUsage :=
  cs.foldl (fun acc c => tuConv (projectName c) (convTools c) acc)
    ⟨fun _ => 0, fun _ _ => 0⟩

theorem bump_apply (f : String → Nat) (k x : String) :
    bump f k x = f x + (if x = k then 1 else 0) := by
  by_cases h : x = k <;> simp [bump, h]

theorem tuConv_overall (p : String) (names : List String) (acc : ToolUsage) (t : String) :
    (tuConv p names acc).overall t = acc.overall t + names.count t := by
  induction names generalizing acc with
  | nil => simp [tuConv]
  | cons n rest ih =>
      simp only [tuConv, List.foldl_cons] at *
      rw [ih]
      simp [bump_apply, List.count_cons]
      by_cases h : t = n <;> simp [h, eq_comm] <;> omega

theorem tuConv_byProject (p : String) (names : List String) (acc : ToolUsage) (q t : String) :
    (tuConv p names acc).byProject q t
      = acc.byProject q t + (if q = p then names.count t else 0) := by
  induction names generalizing acc with
  | nil => simp [tuConv]
  | cons n rest ih =>
      simp only [tuConv, List.foldl_cons] at *
      rw [ih]
      by_cases hq : q = p
      · simp [hq, bump_apply, List.count_cons]
        by_cases h : t = n <;> simp [h, eq_comm] <;> omega
      · simp [hq]

theorem analyzeToolUsage_overall (cs : List Conversation) (t : String) :
    (analyzeToolUsage cs).overall t = (cs.map (fun c => (convTools c).count t)).sum := by
  suffices h : ∀ (l : List Conversation) (acc : ToolUsage),
      (l.foldl (fun acc c => tuConv (projectName c) (convTools c) acc) acc).overall t
        = acc.overall t + (l.map (fun c => (convTools c).count t)).sum by
    simpa [analyzeToolUsage] using h cs ⟨fun _ => 0, fun _ _ => 0⟩
  intro l
  induction l with
  | nil => simp
  | cons c rest ih =>
      intro acc
      simp only [List.foldl_cons, List.map_cons, List.sum_cons]
      rw [ih, tuConv_overall]
      omega

theorem analyzeToolUsage_byProject (cs : List Conversation) (q t : String) :
    (analyzeToolUsage cs).byProject q t
      = (cs.map (fun c => if q = projectName c then (convTools c).count t else 0)).sum := by
  suffices h : ∀ (l : List Conversation) (acc : ToolUsage),
      (l.foldl (fun acc c => tuConv (projectName c) (convTools c) acc) acc).byProject q t
        = acc.byProject q t
          + (l.map (fun c => if q = projectName c then (convTools c).count t else 0)).sum by
    simpa [analyzeToolUsage] using h cs ⟨fun _ => 0, fun _ _ => 0⟩
  intro l
  induction l with
  | nil => simp
  | cons c rest ih =>
      intro acc
      simp only [List.foldl_cons, List.map_cons, List.sum_cons]
      rw [ih, tuConv_byProject]
      omega

theorem sum_map_add_distrib {α : Type} (P : List α) (f g : α → Nat) :
    (P.map (fun p => f p + g p)).sum = (P.map f).sum + (P.map g).sum := by
  induction P with
  | nil => simp
  | cons p rest ih => simp [ih]; omega

theorem sum_map_ite_eq_of_nodup {α : Type} [DecidableEq α] (P : List α) (a : α) (v : Nat)
    (hnd : P.Nodup) (ha : a ∈ P) :
    (P.map (fun p => if p = a then v else 0)).sum = v := by
  induction P with
  | nil => cases ha
  | cons p rest ih =>
      rcases List.mem_cons.mp ha with h | h
      · subst h
        have hnot : a ∉ rest := (List.nodup_cons.mp hnd).1
        have hz : (rest.map (fun p => if p = a then v else 0)).sum = 0 := by
          rw [List.sum_eq_zero]
          intro x hx
          rcases List.mem_map.mp hx with ⟨r, hr, hxr⟩
          have hra : r ≠ a := fun hc => hnot (hc ▸ hr)
          simpa [hra] using hxr.symm
        simp [hz]
      · have hne : p ≠ a := by
          rintro rfl
          exact (List.nodup_cons.mp hnd).1 h
        simp [hne, ih (List.nodup_cons.mp hnd).2 h]

theorem sum_partition_by_key {α : Type} (xs : List α) (key : α → String) (cnt : α → Nat)
    (P : List String) (hnd : P.Nodup) (hall : ∀ x ∈ xs, key x ∈ P) :
    (xs.map cnt).sum
      = (P.map (fun p => (xs.map (fun x => if p = key x then cnt x else 0)).sum)).sum := by
  induction xs with
  | nil => simp
  | cons x rest ih =>
      simp only [List.map_cons, List.sum_cons]
      have hrest := ih (fun y hy => hall y (List.mem_cons_of_mem _ hy))
      have hsplit :
          (P.map (fun p =>
            (if p = key x then cnt x else 0)
              + (rest.map (fun y => if p = key y then cnt y else 0)).sum)).sum
            = (P.map (fun p => if p = key x then cnt x else 0)).sum
              + (P.map (fun p => (rest.map (fun y => if p = key y then cnt y else 0)).sum)).sum :=
        sum_map_add_distrib P _ _
      rw [hrest]
      simp only [List.map_cons, List.sum_cons] at hsplit ⊢
      rw [hsplit, sum_map_ite_eq_of_nodup P (key x) (cnt x) hnd (hall x (List.mem_cons_self x rest))]

/-- C4 — For every conversation list and every tool name t, the overall count
of analyzeToolUsage equals the sum over the collection's project names of the
per-project count for t. -/
theorem C4_toolUsage_overall_eq_sum_byProject (cs : List Conversation) (t : String) :
    (analyzeToolUsage cs).overall t
      = (((cs.map projectName).dedup).map
          (fun p => (analyzeToolUsage cs).byProject p t)).sum := by
  rw [analyzeToolUsage_overall cs t]
  have hb : ∀ p, (analyzeToolUsage cs).byProject p t
      = (cs.map (fun c => if p = projectName c then (convTools c).count t else 0)).sum :=
    fun p => analyzeToolUsage_byProject cs p t
  simp only [hb]
  exact sum_partition_by_key cs projectName (fun c => (convTools c).count t)
    ((cs.map projectName).dedup) (List.nodup_dedup _)
    (fun c hc => List.mem_dedup.mpr (List.mem_map_of_mem projectName hc))

/-- One entry of analyzeConversationMetrics (conversation-analyzer.js
lines 44-85). Durations subtract Date values, so they may be negative. -/
structure ConvMetric where
  conversationId : String
  project : Option String
  messageCount : Nat
  userMessages : Nat
  assistantMessages : Nat
  toolUseCount : Nat
  duration : Int
  timestamp : Option Nat
deriving DecidableEq, Repr

/-- Tool-use item count of one message for the metrics pass: assistant
messages with array content, counting items with type tool_use (this pass
does not require a name, unlike analyzeToolUsage). -/
def msgToolUseCount (m : Msg) : Nat :=
  if m.type = "assistant" then
    match m.content with
    | .arr items => items.countP (fun i => i.itemType = "tool_use")
    | _ => 0
  else 0

/-- conv.messages.map(m => m.timestamp).filter(Boolean). -/
def convTimestamps (c : Conversation) : List Nat :=
  c.messages.filterMap (fun m => m.timestamp)

/-- Per-conversation metric record of analyzeConversationMetrics. -/
def convMetric (c : Conversation) : ConvMetric :=
  let ts := convTimestamps c
  { conversationId := c.conversationId
    project := c.project
    messageCount := c.messages.length
    userMessages := (c.messages.filter (fun m => m.type = "user")).length
    assistantMessages := (c.messages.filter (fun m => m.type = "assistant")).length
    toolUseCount := (c.messages.map msgToolUseCount).sum
    duration :=
      match ts.head?, ts.getLast? with
      | some f, some l => (l : Int) - (f : Int)
      | _, _ => 0
    timestamp := ts.head? }

/-- analyzeConversationMetrics: one metric record per conversation, in
input order. -/
def analyzeConversationMetrics (cs : List Conversation) : List ConvMetric :=
  cs.map convMetric

/-- The ten task-pattern buckets of analyzeTaskPatterns. -/
inductive TaskPattern
  | debugging
  | featureImplementation
  | codeReview
  | documentation
  | refactoring
  | testing
  | exploration
  | configuration
  | update
  | question
deriving DecidableEq, Repr

/-- The keyword table of analyzeTaskPatterns (conversation-analyzer.js
lines 104-115), verbatim. -/
def keywords : TaskPattern → List String
  | .debugging =>
      ["fix", "error", "bug", "issue", "broken", "not working", "debug", "failing", "crash"]
  | .featureImplementation =>
      ["add", "create", "implement", "build", "new feature", "functionality", "need to", "want to"]
  | .codeReview => ["review", "look at", "analyze", "examine", "can you check"]
  | .documentation => ["document", "readme", "comment", "docs", "documentation"]
  | .refactoring => ["refactor", "improve", "optimize", "clean up", "restructure", "reorganize"]
  | .testing => ["test", "testing", "unit test", "integration test"]
  | .exploration =>
      ["how do", "how can", "what is", "what does", "explain", "understand", "learn", "find",
        "search", "where"]
  | .configuration => ["config", "setup", "install", "configure", "settings"]
  | .update => ["update", "change", "modify", "edit", "replace", "remove"]
  | .question => ["?", "why", "when", "should", "could", "would"]

/-- The priority order the classification loop walks (lines 127-138). -/
def priorityOrder : List TaskPattern :=
  [.debugging, .featureImplementation, .testing, .refactoring, .update, .configuration,
    .documentation, .codeReview, .exploration, .question]

/-- All ten buckets (the keys of the patterns object). -/
def allPatterns : List TaskPattern :=
  [.debugging, .featureImplementation, .codeReview, .documentation, .refactoring, .testing,
    .exploration, .configuration, .update, .question]

/-- JavaScript String.prototype.includes: the needle occurs contiguously
in the haystack. -/
def jsIncludes (haystack needle : String) : Bool :=
  decide (needle.toList <:+: haystack.toList)

/-- content.toLowerCase(): lower-case every character (same as core
String.toLower, restated over the character list so it reduces). -/
def jsToLower (s : String) : String :=
  String.mk (s.data.map Char.toLower)

/-- lowerContent.includes(word) over the keyword group of one pattern. -/
def patternMatches (content : String) (p : TaskPattern) : Bool :=
  (keywords p).any (fun w => jsIncludes (jsToLower content) w)

/-- The classification loop (lines 140-147): walk priorityOrder, the first
group with a matching keyword wins; none matches, no bucket. -/
def classifyMessage (content : String) : Option TaskPattern :=
  priorityOrder.find? (patternMatches content)

/-- The plain-string contents of the user messages of one conversation,
in message order (lines 117-122). -/
def userStrings (c : Conversation) : List String :=
  (c.messages.filter (fun m => m.type = "user")).filterMap
    (fun m => match m.content with | .str s => some s | _ => none)

/-- patterns[k] increment on the bucket function. -/
def bumpPat (f : TaskPattern → Nat) (p : TaskPattern) : TaskPattern → Nat :=
  fun q => if q = p then f q + 1 else f q

/-- analyzeTaskPatterns (conversation-analyzer.js lines 90-153). -/
def analyzeTaskPatterns (cs : List Conversation) : TaskPattern → Nat :=
  cs.foldl
    (fun acc c =>
      (userStrings c).foldl
        (fun acc s =>
          match classifyMessage s with
          | some p => bumpPat acc p
          | none => acc)
        acc)
    (fun _ => 0)

theorem taskStep_counts (l : List String) (acc : TaskPattern → Nat) (p : TaskPattern) :
    (l.foldl
        (fun acc s =>
          match classifyMessage s with
          | some q => bumpPat acc q
          | none => acc)
        acc) p
      = acc p + l.countP (fun s => classifyMessage s = some p) := by
  induction l generalizing acc with
  | nil => simp
  | cons s rest ih =>
      simp only [List.foldl_cons, List.countP_cons]
      rw [ih]
      cases h : classifyMessage s with
      | none => simp [h]
      | some q =>
          by_cases hq : p = q
          · subst hq
            simp [h, bumpPat]
            omega
          · simp [h, bumpPat, hq, Ne.symm hq]

theorem analyzeTaskPatterns_counts (cs : List Conversation) (p : TaskPattern) :
    analyzeTaskPatterns cs p
      = (cs.flatMap userStrings).countP (fun s => classifyMessage s = some p) := by
  suffices h : ∀ (l : List Conversation) (acc : TaskPattern → Nat),
      (l.foldl
          (fun acc c =>
            (userStrings c).foldl
              (fun acc s =>
                match classifyMessage s with
                | some q => bumpPat acc q
                | none => acc)
              acc)
          acc) p
        = acc p + (l.flatMap userStrings).countP (fun s => classifyMessage s = some p) by
    simpa [analyzeTaskPatterns] using h cs (fun _ => 0)
  intro l
  induction l with
  | nil => simp
  | cons c rest ih =>
      intro acc
      simp only [List.foldl_cons, List.flatMap_cons, List.countP_append]
      rw [ih, taskStep_counts]
      omega

theorem find?_eq_head?_filter {α : Type} (p : α → Bool) (l : List α) :
    l.find? p = (l.filter p).head? := by
  induction l with
  | nil => rfl
  | cons a rest ih =>
      by_cases h : p a
      · rw [List.find?_cons_of_pos _ h, List.filter_cons_of_pos h]
        rfl
      · rw [List.find?_cons_of_neg _ h, List.filter_cons_of_neg h, ih]

theorem mem_allPatterns (p : TaskPattern) : p ∈ allPatterns := by
  cases p <;> decide

theorem sum_ite_classify (s : String) :
    (allPatterns.map (fun p =>
        if classifyMessage s = some p then (1 : Nat) else 0)).sum
      = if (classifyMessage s).isSome then (1 : Nat) else 0 := by
  cases h : classifyMessage s with
  | none => simp [h]
  | some q =>
      simp only [h, Option.isSome_some, if_true, Option.some.injEq]
      have hpt : ∀ p : TaskPattern,
          (if q = p then (1 : Nat) else 0) = if p = q then 1 else 0 := by
        intro p
        by_cases hpq : p = q
        · simp [hpq]
        · have hqp : ¬ q = p := fun hc => hpq hc.symm
          simp [hpq, hqp]
      simp only [hpt]
      exact sum_map_ite_eq_of_nodup allPatterns q 1 (by decide) (mem_allPatterns q)

theorem sum_counts_eq_classified (l : List String) :
    (allPatterns.map (fun p => l.countP (fun s => classifyMessage s = some p))).sum
      = l.countP (fun s => (classifyMessage s).isSome) := by
  induction l with
  | nil => simp
  | cons s rest ih =>
      simp only [List.countP_cons, decide_eq_true_eq]
      rw [sum_map_add_distrib allPatterns
        (fun p => rest.countP (fun s => classifyMessage s = some p))
        (fun p => if classifyMessage s = some p then 1 else 0), ih,
        sum_ite_classify s]

/-- C5 — Task-pattern classification: every user message with plain-string
content is classified by walking priorityOrder (debugging, then
featureImplementation, testing, refactoring, update, configuration,
documentation, codeReview, exploration, question); the first group with a
matching lower-cased keyword substring wins (classifyMessage equals the head
of the priority-filtered match list); analyzeTaskPatterns counts exactly the
messages classified into each bucket, the buckets sum to the number of
classified messages (so each message increments at most one bucket, none when
no group matches), and a message containing both "fix" and "add" lands in
debugging, not featureImplementation. -/
theorem C5_taskPattern_priority_classification :
    (∀ (cs : List Conversation) (p : TaskPattern),
        analyzeTaskPatterns cs p
          = (cs.flatMap userStrings).countP (fun s => classifyMessage s = some p))
      ∧ (∀ s : String, classifyMessage s = (priorityOrder.filter (patternMatches s)).head?)
      ∧ (∀ cs : List Conversation,
          (allPatterns.map (analyzeTaskPatterns cs)).sum
            = (cs.flatMap userStrings).countP (fun s => (classifyMessage s).isSome))
      ∧ classifyMessage "Fix it and add a test" = some .debugging
      ∧ priorityOrder = [.debugging, .featureImplementation, .testing, .refactoring, .update,
          .configuration, .documentation, .codeReview, .exploration, .question] := by
  refine ⟨analyzeTaskPatterns_counts, ?_, ?_, by decide, rfl⟩
  · intro s
    exact find?_eq_head?_filter (patternMatches s) priorityOrder
  · intro cs
    have hfun : analyzeTaskPatterns cs
        = fun p => (cs.flatMap userStrings).countP (fun s => classifyMessage s = some p) :=
      funext (analyzeTaskPatterns_counts cs)
    rw [hfun]
    exact sum_counts_eq_classified (cs.flatMap userStrings)

/-- Math.round on a nonnegative rational: nearest integer, half up. -/
def jsRound (x : ℚ) : Int :=
  Int.floor (x + 1/2)

/-- The running counters of analyzePromptingPatterns (the promptLengths
array and the example lists are collected by the source but never returned,
so they carry no observable state and are omitted). -/
structure PromptCounts where
  totalPrompts : Nat := 0
  totalLength : Nat := 0
  shortPromptsCount : Nat := 0
  mediumPromptsCount : Nat := 0
  longPromptsCount : Nat := 0
deriving DecidableEq, Repr

/-- One user prompt through the counting chain of analyzePromptingPatterns
(lines 175-199): only nonempty plain strings count; length under 50 is
short, else under 200 medium, else long. String lengths count characters. -/
def promptStep (acc : PromptCounts) (s : String) : PromptCounts :=
  if 0 < s.length then
    let acc :=
      { acc with
          totalPrompts := acc.totalPrompts + 1
          totalLength := acc.totalLength + s.length }
    if s.length < 50 then
      { acc with shortPromptsCount := acc.shortPromptsCount + 1 }
    else if s.length < 200 then
      { acc with mediumPromptsCount := acc.mediumPromptsCount + 1 }
    else
      { acc with longPromptsCount := acc.longPromptsCount + 1 }
  else acc

/-- The counter state after the two nested forEach loops. -/
def promptCounts (cs : List Conversation) : PromptCounts :=
  cs.foldl (fun acc c => (userStrings c).foldl promptStep acc) {}

/-- One distribution bucket of the analyzePromptingPatterns result. -/
structure BucketStat where
  count : Nat
  percentage : Int
  description : String
deriving DecidableEq, Repr

/-- Result shape of analyzePromptingPatterns: totalPrompts, avgLength and
distribution.short/medium/long. -/
structure PromptingPatterns where
  totalPrompts : Nat
  avgLength : Int
  short : BucketStat
  medium : BucketStat
  long : BucketStat
deriving DecidableEq, Repr

/-- analyzePromptingPatterns (conversation-analyzer.js lines 158-223). -/
def analyzePromptingPatterns (cs : List Conversation) : PromptingPatterns :=
  let t := promptCounts cs
  { totalPrompts := t.totalPrompts
    avgLength :=
      if 0 < t.totalPrompts then jsRound ((t.totalLength : ℚ) / (t.totalPrompts : ℚ)) else 0
    short :=
      { count := t.shortPromptsCount
        percentage :=
          if 0 < t.totalPrompts then
            jsRound ((t.shortPromptsCount : ℚ) / (t.totalPrompts : ℚ) * 100)
          else 0
        description := "Under 50 characters - quick questions or commands" }
    medium :=
      { count := t.mediumPromptsCount
        percentage :=
          if 0 < t.totalPrompts then
            jsRound ((t.mediumPromptsCount : ℚ) / (t.totalPrompts : ℚ) * 100)
          else 0
        description := "50-200 characters - clear, focused requests" }
    long :=
      { count := t.longPromptsCount
        percentage :=
          if 0 < t.totalPrompts then
            jsRound ((t.longPromptsCount : ℚ) / (t.totalPrompts : ℚ) * 100)
          else 0
        description := "Over 200 characters - detailed context and requirements" } }

theorem foldl_promptStep (l : List String) (acc : PromptCounts) :
    l.foldl promptStep acc
      = { totalPrompts := acc.totalPrompts + l.countP (fun s => 0 < s.length)
          totalLength := acc.totalLength + (l.map String.length).sum
          shortPromptsCount :=
            acc.shortPromptsCount + l.countP (fun s => 0 < s.length && s.length < 50)
          mediumPromptsCount :=
            acc.mediumPromptsCount + l.countP (fun s => 50 ≤ s.length && s.length < 200)
          longPromptsCount := acc.longPromptsCount + l.countP (fun s => 200 ≤ s.length) } := by
  induction l generalizing acc with
  | nil => simp
  | cons s rest ih =>
      rw [List.foldl_cons, ih]
      by_cases h0 : 0 < s.length
      · by_cases h1 : s.length < 50
        · have h2 : ¬ 50 ≤ s.length := by omega
          simp [promptStep, h0, h1, h2, List.countP_cons, PromptCounts.mk.injEq]
          omega
        · by_cases h2 : s.length < 200
          · have h3 : 50 ≤ s.length := by omega
            have h4 : ¬ 200 ≤ s.length := by omega
            simp [promptStep, h0, h1, h2, h3, h4, List.countP_cons, PromptCounts.mk.injEq]
            omega
          · have h3 : ¬ s.length < 50 := h1
            have h4 : 200 ≤ s.length := by omega
            have h5 : ¬ s.length < 200 := h2
            simp [promptStep, h0, h1, h2, h4, List.countP_cons, PromptCounts.mk.injEq]
            omega
      · have h1 : ¬ (0 < s.length && s.length < 50) = true := by
          simp; omega
        have h2 : ¬ (50 ≤ s.length && s.length < 200) = true := by
          simp; omega
        have h3 : ¬ 200 ≤ s.length := by omega
        have h4 : s.length = 0 := by omega
        simp [promptStep, h0, List.countP_cons, h1, h2, h3, h4, PromptCounts.mk.injEq]

theorem promptCounts_spec (cs : List Conversation) :
    promptCounts cs
      = { totalPrompts := (cs.flatMap userStrings).countP (fun s => 0 < s.length)
          totalLength := ((cs.flatMap userStrings).map String.length).sum
          shortPromptsCount :=
            (cs.flatMap userStrings).countP (fun s => 0 < s.length && s.length < 50)
          mediumPromptsCount :=
            (cs.flatMap userStrings).countP (fun s => 50 ≤ s.length && s.length < 200)
          longPromptsCount := (cs.flatMap userStrings).countP (fun s => 200 ≤ s.length) } := by
  suffices h : ∀ (l : List Conversation) (acc : PromptCounts),
      l.foldl (fun acc c => (userStrings c).foldl promptStep acc) acc
        = { totalPrompts := acc.totalPrompts + (l.flatMap userStrings).countP (fun s => 0 < s.length)
            totalLength := acc.totalLength + ((l.flatMap userStrings).map String.length).sum
            shortPromptsCount := acc.shortPromptsCount
              + (l.flatMap userStrings).countP (fun s => 0 < s.length && s.length < 50)
            mediumPromptsCount := acc.mediumPromptsCount
              + (l.flatMap userStrings).countP (fun s => 50 ≤ s.length && s.length < 200)
            longPromptsCount := acc.longPromptsCount
              + (l.flatMap userStrings).countP (fun s => 200 ≤ s.length) } by
    simpa [promptCounts] using h cs {}
  intro l
  induction l with
  | nil => simp
  | cons c rest ih =>
      intro acc
      rw [List.foldl_cons, foldl_promptStep, ih]
      simp [List.countP_append, PromptCounts.mk.injEq]
      omega

/-- A probe conversation holding one user message of exactly n characters. -/
def promptProbe (n : Nat) : Conversation :=
  { conversationId := "c"
    messages := [{ type := "user", content := .str (String.mk (List.replicate n 'a')) }] }

set_option maxRecDepth 8000 in
/-- C6 — Prompting-style bucketing is by exact character length of each
nonempty user string prompt: analyzePromptingPatterns counts a prompt as
short when its length is under 50, medium when it is 50 to 199, and long
when it is 200 or more; concretely a 49-character prompt is short, a
50-character and a 199-character prompt are medium, and a 200-character
prompt is long. -/
theorem C6_prompt_length_buckets :
    (∀ cs : List Conversation,
        ((analyzePromptingPatterns cs).short.count
            = (cs.flatMap userStrings).countP (fun s => 0 < s.length && s.length < 50))
          ∧ ((analyzePromptingPatterns cs).medium.count
              = (cs.flatMap userStrings).countP (fun s => 50 ≤ s.length && s.length < 200))
          ∧ ((analyzePromptingPatterns cs).long.count
              = (cs.flatMap userStrings).countP (fun s => 200 ≤ s.length)))
      ∧ ((analyzePromptingPatterns [promptProbe 49]).short.count = 1
          ∧ (analyzePromptingPatterns [promptProbe 49]).medium.count = 0
          ∧ (analyzePromptingPatterns [promptProbe 49]).long.count = 0)
      ∧ ((analyzePromptingPatterns [promptProbe 50]).short.count = 0
          ∧ (analyzePromptingPatterns [promptProbe 50]).medium.count = 1
          ∧ (analyzePromptingPatterns [promptProbe 50]).long.count = 0)
      ∧ ((analyzePromptingPatterns [promptProbe 199]).medium.count = 1
          ∧ (analyzePromptingPatterns [promptProbe 199]).long.count = 0)
      ∧ ((analyzePromptingPatterns [promptProbe 200]).short.count = 0
          ∧ (analyzePromptingPatterns [promptProbe 200]).medium.count = 0
          ∧ (analyzePromptingPatterns [promptProbe 200]).long.count = 1) := by
  refine ⟨?_, by decide, by decide, by decide, by decide⟩
  intro cs
  simp [analyzePromptingPatterns, promptCounts_spec]

/-- User-turn count of a conversation (messages with type user). -/
def userTurns (c : Conversation) : Nat :=
  (c.messages.filter (fun m => m.type = "user")).length

/-- The running counters of analyzeConversationFlows. -/
structure FlowCounts where
  singleTurnCount : Nat := 0
  shortConvCount : Nat := 0
  mediumConvCount : Nat := 0
  longConvCount : Nat := 0
  conversationLengths : List Nat := []
deriving DecidableEq, Repr

/-- One conversation through the bucketing chain of analyzeConversationFlows
(lines 236-251): exactly 1 user turn is single, otherwise at most 5 is short
(this includes 0 turns), otherwise at most 15 is medium, otherwise long. -/
def flowStep (acc : FlowCounts) (t : Nat) : FlowCounts :=
  let acc := { acc with conversationLengths := acc.conversationLengths ++ [t] }
  if t = 1 then { acc with singleTurnCount := acc.singleTurnCount + 1 }
  else if t ≤ 5 then { acc with shortConvCount := acc.shortConvCount + 1 }
  else if t ≤ 15 then { acc with mediumConvCount := acc.mediumConvCount + 1 }
  else { acc with longConvCount := acc.longConvCount + 1 }

/-- The counter state after the forEach loop. -/
def flowCounts (cs : List Conversation) : FlowCounts :=
  cs.foldl (fun acc c => flowStep acc (userTurns c)) {}

/-- One distribution bucket of the analyzeConversationFlows result.
Percentages divide by conversations.length unconditionally; on an empty
collection the JavaScript result is NaN, rendered here as the ℚ convention
division by zero = 0. -/
structure FlowStat where
  count : Nat
  percentage : ℚ
  description : String
deriving DecidableEq, Repr

/-- Result shape of analyzeConversationFlows. -/
structure ConversationFlows where
  avgTurnsPerConversation : ℚ
  singleTurn : FlowStat
  shortConversations : FlowStat
  mediumConversations : FlowStat
  longConversations : FlowStat
deriving DecidableEq, Repr

/-- Math.round(x * 10) / 10: round to one decimal. -/
def roundTo1 (x : ℚ) : ℚ :=
  (jsRound (x * 10) : ℚ) / 10

/-- analyzeConversationFlows (conversation-analyzer.js lines 228-282). -/
def analyzeConversationFlows (cs : List Conversation) : ConversationFlows :=
  let t := flowCounts cs
  let avgTurns : ℚ :=
    if 0 < t.conversationLengths.length then
      (t.conversationLengths.sum : ℚ) / (t.conversationLengths.length : ℚ)
    else 0
  { avgTurnsPerConversation := roundTo1 avgTurns
    singleTurn :=
      { count := t.singleTurnCount
        percentage := jsRound ((t.singleTurnCount : ℚ) / (cs.length : ℚ) * 100)
        description := "One question, quick answer" }
    shortConversations :=
      { count := t.shortConvCount
        percentage := jsRound ((t.shortConvCount : ℚ) / (cs.length : ℚ) * 100)
        description := "2-5 back-and-forth exchanges" }
    mediumConversations :=
      { count := t.mediumConvCount
        percentage := jsRound ((t.mediumConvCount : ℚ) / (cs.length : ℚ) * 100)
        description := "6-15 exchanges - typical task completion" }
    longConversations :=
      { count := t.longConvCount
        percentage := jsRound ((t.longConvCount : ℚ) / (cs.length : ℚ) * 100)
        description := "16+ exchanges - complex or iterative work" } }

theorem foldl_flowStep (l : List Nat) (acc : FlowCounts) :
    l.foldl flowStep acc
      = { singleTurnCount := acc.singleTurnCount + l.countP (fun t => t = 1)
          shortConvCount := acc.shortConvCount + l.countP (fun t => !(t = 1) && t ≤ 5)
          mediumConvCount := acc.mediumConvCount + l.countP (fun t => 5 < t && t ≤ 15)
          longConvCount := acc.longConvCount + l.countP (fun t => 15 < t)
          conversationLengths := acc.conversationLengths ++ l } := by
  induction l generalizing acc with
  | nil => simp
  | cons t rest ih =>
      rw [List.foldl_cons, ih]
      by_cases h1 : t = 1
      · simp [flowStep, h1, List.countP_cons, FlowCounts.mk.injEq]
        omega
      · by_cases h2 : t ≤ 5
        · have h3 : ¬ 5 < t := by omega
          simp [flowStep, h1, h2, h3, List.countP_cons, FlowCounts.mk.injEq]
          omega
        · by_cases h3 : t ≤ 15
          · have h4 : 5 < t := by omega
            have h5 : ¬ 15 < t := by omega
            simp [flowStep, h1, h2, h3, h4, h5, List.countP_cons, FlowCounts.mk.injEq]
            omega
          · have h4 : ¬ (5 < t && t ≤ 15) = true := by simp; omega
            have h5 : 15 < t := by omega
            simp [flowStep, h1, h2, h3, h4, h5, List.countP_cons, FlowCounts.mk.injEq]
            omega

theorem flowCounts_spec (cs : List Conversation) :
    flowCounts cs
      = { singleTurnCount := cs.countP (fun c => userTurns c = 1)
          shortConvCount := cs.countP (fun c => !(userTurns c = 1) && userTurns c ≤ 5)
          mediumConvCount := cs.countP (fun c => 5 < userTurns c && userTurns c ≤ 15)
          longConvCount := cs.countP (fun c => 15 < userTurns c)
          conversationLengths := cs.map userTurns } := by
  have h : flowCounts cs = (cs.map userTurns).foldl flowStep {} := by
    unfold flowCounts
    rw [List.foldl_map]
  rw [h, foldl_flowStep]
  simp [List.countP_map, Function.comp_def]

/-- A probe conversation with exactly n user turns. -/
def turnProbe (n : Nat) : Conversation :=
  { conversationId := "c"
    messages := List.replicate n { type := "user", content := .str "hi" } }

/-- A conversation with no user turn at all: a single synthetic system
message, as the codex and cursor readers produce for metadata-only files. -/
def zeroTurnConv : Conversation :=
  { conversationId := "z"
    messages := [{ type := "system", content := .str "Session metadata only" }] }

/-- C7 counterexample — the claim reads the shortConversations bucket as
counting exactly the conversations with 2 to 5 user turns; but a
conversation with zero user turns is also counted there by the source
(turnCount !== 1 and turnCount <= 5), so the four stated ranges do not
describe the partition. -/
theorem C7_counterexample_zero_turns_in_short :
    (analyzeConversationFlows [zeroTurnConv]).shortConversations.count = 1
      ∧ userTurns zeroTurnConv = 0
      ∧ ¬ ((analyzeConversationFlows [zeroTurnConv]).shortConversations.count
            = [zeroTurnConv].countP (fun c => 2 ≤ userTurns c && userTurns c ≤ 5)) := by
  refine ⟨by decide, by decide, ?_⟩
  intro h
  simp only [show [zeroTurnConv].countP (fun c => 2 ≤ userTurns c && userTurns c ≤ 5) = 0
    from by decide] at h
  exact absurd h (by decide)

/-- The mean user-turn count the source computes before rounding
(0 for an empty collection). -/
def meanTurns (cs : List Conversation) : ℚ :=
  if 0 < cs.length then ((cs.map userTurns).sum : ℚ) / (cs.length : ℚ) else 0

theorem roundTo1_near (x : ℚ) :
    (∃ k : ℤ, roundTo1 x * 10 = k) ∧ |roundTo1 x - x| ≤ 1/20 := by
  constructor
  · refine ⟨jsRound (x * 10), ?_⟩
    rw [roundTo1]
    field_simp
  · have h1 : (jsRound (x * 10) : ℚ) ≤ x * 10 + 1/2 := by
      simpa [jsRound] using Int.floor_le (x * 10 + 1/2)
    have h2 : x * 10 + 1/2 < (jsRound (x * 10) : ℚ) + 1 := by
      simpa [jsRound] using Int.lt_floor_add_one (x * 10 + 1/2)
    rw [abs_le, roundTo1]
    constructor
    · linarith
    · linarith

set_option maxRecDepth 4000 in
/-- C7 (amended) — analyzeConversationFlows buckets by user-turn count:
exactly 1 turn is singleTurn; at most 5 turns but not exactly 1 (so 0 or
2 to 5) is shortConversations; 6 to 15 is mediumConversations; 16 or more is
longConversations; in particular exactly 5 is short, exactly 6 and exactly 15
are medium, exactly 16 is long. The reported average is the mean user-turn
count rounded to one decimal (ten times it is an integer and it is within
1/20 of the mean). -/
theorem C7_flow_buckets_amended :
    (∀ cs : List Conversation,
        ((analyzeConversationFlows cs).singleTurn.count
            = cs.countP (fun c => userTurns c = 1))
          ∧ ((analyzeConversationFlows cs).shortConversations.count
              = cs.countP (fun c => !(userTurns c = 1) && userTurns c ≤ 5))
          ∧ ((analyzeConversationFlows cs).mediumConversations.count
              = cs.countP (fun c => 5 < userTurns c && userTurns c ≤ 15))
          ∧ ((analyzeConversationFlows cs).longConversations.count
              = cs.countP (fun c => 15 < userTurns c))
          ∧ (∃ k : ℤ, (analyzeConversationFlows cs).avgTurnsPerConversation * 10 = k)
          ∧ |(analyzeConversationFlows cs).avgTurnsPerConversation - meanTurns cs| ≤ 1/20)
      ∧ (analyzeConversationFlows [turnProbe 1]).singleTurn.count = 1
      ∧ (analyzeConversationFlows [turnProbe 5]).shortConversations.count = 1
      ∧ (analyzeConversationFlows [turnProbe 6]).mediumConversations.count = 1
      ∧ (analyzeConversationFlows [turnProbe 15]).mediumConversations.count = 1
      ∧ (analyzeConversationFlows [turnProbe 16]).longConversations.count = 1 := by
  refine ⟨?_, by decide, by decide, by decide, by decide, by decide⟩
  intro cs
  have havg : (analyzeConversationFlows cs).avgTurnsPerConversation = roundTo1 (meanTurns cs) := by
    simp [analyzeConversationFlows, flowCounts_spec, meanTurns]
  refine ⟨?_, ?_, ?_, ?_, ?_, ?_⟩
  · simp [analyzeConversationFlows, flowCounts_spec]
  · simp [analyzeConversationFlows, flowCounts_spec]
  · simp [analyzeConversationFlows, flowCounts_spec]
  · simp [analyzeConversationFlows, flowCounts_spec]
  · rw [havg]
    exact (roundTo1_near (meanTurns cs)).1
  · rw [havg]
    exact (roundTo1_near (meanTurns cs)).2

/-- sequences[seq] = (sequences[seq] || 0) + 1 on an insertion-ordered
association list (JavaScript object key order for string keys). -/
def bumpAssoc : List (String × Nat) → String → List (String × Nat)
  | [], k => [(k, 1)]
  | (k', n) :: rest, k =>
      if k' = k then (k', n + 1) :: rest else (k', n) :: bumpAssoc rest k

/-- The 2-tool sequence keys of one tool list (lines 307-310). -/
def adjacentPairs : List String → List String
  | a :: b :: rest => (a ++ " → " ++ b) :: adjacentPairs (b :: rest)
  | _ => []

/-- analyzeToolSequences (conversation-analyzer.js lines 287-320): count
adjacent tool pairs per conversation, sort descending by count (stable, as
Array.prototype.sort is), keep the top 10. -/
def analyzeToolSequences (cs : List Conversation) : List (String × Nat) :=
  let seqs := cs.foldl (fun acc c => (adjacentPairs (convTools c)).foldl bumpAssoc acc) []
  (seqs.mergeSort (fun a b => b.2 ≤ a.2)).take 10

/-- Per-project record of analyzeProjectActivity (after the raw timestamps
list is deleted from the response). -/
structure ProjStats where
  conversationCount : Nat := 0
  messageCount : Nat := 0
  firstActivity : Option Nat := none
  lastActivity : Option Nat := none
deriving DecidableEq, Repr

/-- analyzeProjectActivity (conversation-analyzer.js lines 325-363), read
per project key: conversation count, message count, and the first and last
message timestamp of the project (ISO strings sort lexicographically, i.e.
chronologically; here the sorted Nat list). -/
def analyzeProjectActivity (cs : List Conversation) : String → ProjStats := fun p =>
  let convs := cs.filter (fun c => projectName c = p)
  let ts := (convs.flatMap convTimestamps).mergeSort (fun a b => a ≤ b)
  { conversationCount := convs.length
    messageCount := (convs.map (fun c => c.messages.length)).sum
    firstActivity := ts.head?
    lastActivity := ts.getLast? }

/-- The keys of the projectStats object, one per project name occurring in
the collection. -/
def projectKeys (cs : List Conversation) : List String :=
  (cs.map projectName).dedup

/-- One recommendation record of generateRecommendations. -/
structure Recommendation where
  rtype : String
  title : String
  insight : String
  action : String
  priority : String
deriving DecidableEq, Repr

/-- Per-conversation average tools per tool-calling assistant message
(lines 453-466): 0 when no assistant message invoked a tool. -/
def convAvgTools (c : Conversation) : ℚ :=
  let counts := c.messages.filterMap
    (fun m => let k := msgToolUseCount m; if 0 < k then some k else none)
  if counts.length = 0 then 0 else (counts.sum : ℚ) / (counts.length : ℚ)

/-- The rule list of generateRecommendations in evaluation order
(conversation-analyzer.js lines 368-477). The rule that averages tool calls
per message fires only on a nonempty collection: in the source the empty
case divides by zero giving NaN, and NaN < 1.5 is false. -/
def recRules (cs : List Conversation) (tu : ToolUsage) (tp : TaskPattern → Nat)
    (pp : PromptingPatterns) (cf : ConversationFlows) : List Recommendation :=
  let readCount := tu.overall "Read"
  let editCount := tu.overall "Edit"
  let grepCount := tu.overall "Grep"
  let globCount := tu.overall "Glob"
  let taskCount := tu.overall "Task"
  let todoCount := tu.overall "TodoWrite"
  let longConvPercentage := cf.longConversations.percentage
  let shortPromptPercentage := pp.short.percentage
  let debuggingCount := tp .debugging
  let totalTasks := (allPatterns.map tp).sum
  let avgToolsPerMessage : ℚ := (cs.map convAvgTools).sum / (cs.length : ℚ)
  (if 50 < grepCount ∧ taskCount < 10 then
    [{ rtype := "efficiency"
       title := "Use Task Agent for Complex Searches"
       insight := "You\x27ve used Grep " ++ toString grepCount
         ++ " times. For complex multi-file searches, the Task agent can search more effectively."
       action := "Try using the Task tool for searches across multiple files or complex refactoring tasks."
       priority := "high" }]
  else [])
  ++ (if 30 < longConvPercentage ∧ todoCount < 50 then
    [{ rtype := "workflow"
       title := "Track Complex Tasks with TodoWrite"
       insight := toString longConvPercentage
         ++ "% of your conversations are long (16+ exchanges). TodoWrite helps track multi-step tasks."
       action := "Ask Claude to use TodoWrite at the start of complex implementations to track progress."
       priority := "high" }]
  else [])
  ++ (if 100 < readCount ∧ 100 < editCount ∧ (readCount : ℚ) / (editCount : ℚ) < 3/2 then
    [{ rtype := "efficiency"
       title := "Consider Batching Read Operations"
       insight := "You often read and edit files separately. Claude can read multiple files at once."
       action := "Try asking \x22Read files X, Y, and Z\x22 in one message to batch operations."
       priority := "medium" }]
  else [])
  ++ (if 40 < shortPromptPercentage then
    [{ rtype := "prompting"
       title := "Provide More Context in Prompts"
       insight := toString shortPromptPercentage
         ++ "% of your prompts are very short (<50 chars). More context leads to better results."
       action := "Include file paths, expected behavior, and constraints in your requests for more accurate assistance."
       priority := "medium" }]
  else [])
  ++ (if 200 < readCount ∧ globCount < 50 then
    [{ rtype := "efficiency"
       title := "Use Glob for File Discovery"
       insight := "You\x27ve used Read " ++ toString readCount
         ++ " times. Glob can find files matching patterns more efficiently."
       action := "Ask Claude to \x22find all .tsx files\x22 or \x22glob for test files\x22 to discover files faster."
       priority := "medium" }]
  else [])
  ++ (if (totalTasks : ℚ) * (3/10) < (debuggingCount : ℚ) then
    [{ rtype := "workflow"
       title := "Debugging Strategy"
       insight := toString (jsRound ((debuggingCount : ℚ) / (totalTasks : ℚ) * 100))
         ++ "% of your tasks are debugging. Consider a systematic approach."
       action := "Start debugging sessions with \x22Run the tests first\x22 or \x22Check the error logs\x22 to establish baseline."
       priority := "low" }]
  else [])
  ++ (if 0 < cs.length ∧ avgToolsPerMessage < 3/2
        ∧ (100 < readCount ∨ 50 < grepCount) then
    [{ rtype := "efficiency"
       title := "Request Parallel Operations"
       insight := "Claude can run multiple operations in parallel but usually does them one at a time for you."
       action := "Try asking \x22Read these 3 files in parallel\x22 or \x22Check both implementations simultaneously\x22."
       priority := "high" }]
  else [])

/-- priorityOrder = { high: 0, medium: 1, low: 2 } (line 479); every rule
produces one of the three listed values. -/
def priorityRank (p : String) : Nat :=
  if p = "high" then 0 else if p = "medium" then 1 else if p = "low" then 2 else 3

/-- The sort comparator of line 480 as a total Boolean order; the source
sort is stable (Array.prototype.sort), matching mergeSort. -/
def recLE (a b : Recommendation) : Bool :=
  priorityRank a.priority ≤ priorityRank b.priority

/-- recommendations.sort(...) of generateRecommendations. -/
def sortedRecs (cs : List Conversation) (tu : ToolUsage) (tp : TaskPattern → Nat)
    (pp : PromptingPatterns) (cf : ConversationFlows) : List Recommendation :=
  (recRules cs tu tp pp cf).mergeSort recLE

/-- generateRecommendations: the rule list, priority-sorted, top 5. -/
def generateRecommendations (cs : List Conversation) (tu : ToolUsage) (tp : TaskPattern → Nat)
    (pp : PromptingPatterns) (cf : ConversationFlows) : List Recommendation :=
  (sortedRecs cs tu tp pp cf).take 5

theorem recLE_trans : ∀ a b c : Recommendation,
    recLE a b = true → recLE b c = true → recLE a c = true := by
  intro a b c hab hbc
  simp only [recLE, decide_eq_true_eq] at *
  omega

theorem recLE_total : ∀ a b : Recommendation, (recLE a b || recLE b a) = true := by
  intro a b
  simp only [recLE, Bool.or_eq_true, decide_eq_true_eq]
  omega

theorem mergeSort_filter_priority (l : List Recommendation) (pr : String) :
    ((l.mergeSort recLE).filter (fun r => r.priority = pr))
      = l.filter (fun r => r.priority = pr) := by
  have hcp : List.Pairwise (fun a b => recLE a b = true)
      (l.filter (fun r => r.priority = pr)) := by
    apply List.pairwise_of_forall_mem_list
    intro a ha b hb
    have hpa : a.priority = pr := by
      simpa using List.of_mem_filter ha
    have hpb : b.priority = pr := by
      simpa using List.of_mem_filter hb
    simp [recLE, hpa, hpb]
  have hcs : (l.filter (fun r => r.priority = pr)).Sublist (l.mergeSort recLE) :=
    List.mergeSort_stable recLE_trans recLE_total hcp (List.filter_sublist l)
  have hself : (l.filter (fun r => r.priority = pr)).filter (fun r => r.priority = pr)
      = l.filter (fun r => r.priority = pr) := by
    rw [List.filter_eq_self]
    intro a ha
    have h2 := List.of_mem_filter ha
    simpa using h2
  have hfilter : (l.filter (fun r => r.priority = pr)).Sublist
      ((l.mergeSort recLE).filter (fun r => r.priority = pr)) := by
    have h := List.Sublist.filter (fun r => decide (r.priority = pr)) hcs
    rwa [hself] at h
  have hlen : ((l.mergeSort recLE).filter (fun r => r.priority = pr)).length
      = (l.filter (fun r => r.priority = pr)).length :=
    ((List.mergeSort_perm l recLE).filter _).length_eq
  exact (List.Sublist.eq_of_length hfilter hlen.symm).symm

/-- C8 — The generateRecommendations output never exceeds 5 entries and is
sorted by priority tier (priorityRank high < medium < low, so every high
entry precedes any medium and every medium precedes any low), and for each
tier the sorted list keeps exactly the rule-order entries of that tier
(stability), so the truncated output preserves rule-evaluation order within
a tier. -/
theorem C8_recommendations_sorted_top5 (cs : List Conversation) (tu : ToolUsage)
    (tp : TaskPattern → Nat) (pp : PromptingPatterns) (cf : ConversationFlows) :
    (generateRecommendations cs tu tp pp cf).length ≤ 5
      ∧ List.Pairwise (fun a b => priorityRank a.priority ≤ priorityRank b.priority)
          (generateRecommendations cs tu tp pp cf)
      ∧ (∀ pr : String,
          ((sortedRecs cs tu tp pp cf).filter (fun r => r.priority = pr)
              = (recRules cs tu tp pp cf).filter (fun r => r.priority = pr))
            ∧ ((generateRecommendations cs tu tp pp cf).filter
                (fun r => r.priority = pr)).Sublist
                ((recRules cs tu tp pp cf).filter (fun r => r.priority = pr))) := by
  refine ⟨?_, ?_, ?_⟩
  · simp [generateRecommendations, List.length_take]
  · have hpair : List.Pairwise (fun a b => recLE a b = true) (sortedRecs cs tu tp pp cf) :=
      List.sorted_mergeSort recLE_trans recLE_total (recRules cs tu tp pp cf)
    have hpair' : List.Pairwise
        (fun a b => priorityRank a.priority ≤ priorityRank b.priority)
        (sortedRecs cs tu tp pp cf) :=
      hpair.imp (fun h => by simpa [recLE] using h)
    exact hpair'.sublist (List.take_sublist 5 _)
  · intro pr
    have heq : (sortedRecs cs tu tp pp cf).filter (fun r => r.priority = pr)
        = (recRules cs tu tp pp cf).filter (fun r => r.priority = pr) :=
      mergeSort_filter_priority (recRules cs tu tp pp cf) pr
    refine ⟨heq, ?_⟩
    have hsub : ((generateRecommendations cs tu tp pp cf).filter
        (fun r => r.priority = pr)).Sublist
        ((sortedRecs cs tu tp pp cf).filter (fun r => r.priority = pr)) :=
      List.Sublist.filter _ (List.take_sublist 5 _)
    rwa [heq] at hsub

/-- Modelled from the spec: the analytics summary of the repository under
test also carries a timeline component (wire contract timeline.byDay with
per-day and cumulative counts of sessions, subagent runs, total
conversations, chat messages, tool uses and total events); the analyzer code
producing it is not among the repository files here (only its callers and
its TypeScript declaration are), so it is reconstructed from the spec text:
conversations are bucketed by the calendar day of their start timestamp. -/
def convStartDay (c : Conversation) : Option Nat :=
  (convTimestamps c).head?.map (fun t => t / 86400000)

/-- Modelled from the spec: the six per-day counters of one timeline entry. -/
structure DayCounts where
  sessions : Nat := 0
  subagentRuns : Nat := 0
  totalConversations : Nat := 0
  chatMessages : Nat := 0
  totalEvents : Nat := 0
  toolUses : Nat := 0
deriving DecidableEq, Repr

/-- Componentwise sum of day counters. -/
def addCounts (a b : DayCounts) : DayCounts :=
  { sessions := a.sessions + b.sessions
    subagentRuns := a.subagentRuns + b.subagentRuns
    totalConversations := a.totalConversations + b.totalConversations
    chatMessages := a.chatMessages + b.chatMessages
    totalEvents := a.totalEvents + b.totalEvents
    toolUses := a.toolUses + b.toolUses }

/-- Modelled from the spec: the contribution of one conversation — one
session or one subagent run, one conversation, its chat-message volume
(plain-text messages), its total events (all messages) and its tool uses. -/
def convCounts (c : Conversation) : DayCounts :=
  { sessions := if c.source = "main" then 1 else 0
    subagentRuns := if c.source = "subagent" then 1 else 0
    totalConversations := 1
    chatMessages :=
      (c.messages.filter (fun m => match m.content with | .str _ => true | _ => false)).length
    totalEvents := c.messages.length
    toolUses := (c.messages.map msgToolUseCount).sum }

/-- Sum of a list of day counters. -/
def sumCounts (l : List DayCounts) : DayCounts :=
  l.foldl addCounts {}

/-- Modelled from the spec: the total counters of one calendar day. -/
def dayTotal (cs : List Conversation) (d : Nat) : DayCounts :=
  sumCounts ((cs.filter (fun c => convStartDay c = some d)).map convCounts)

/-- Modelled from the spec: the distinct start days of the collection, in
chronological order (only days with at least one conversation). -/
def timelineDays (cs : List Conversation) : List Nat :=
  ((cs.filterMap convStartDay).dedup).mergeSort (fun a b => a ≤ b)

/-- Modelled from the spec: one timeline.byDay entry — the day, its per-day
counters and the cumulative counters up to and including that day. -/
structure TimelinePoint where
  date : Nat
  counts : DayCounts
  cumulative : DayCounts
deriving DecidableEq, Repr

/-- The timeline builder walks the ordered day list carrying a running
cumulative total. -/
def timelineAux (cs : List Conversation) (cum : DayCounts) : List Nat → List TimelinePoint
  | [] => []
  | d :: ds =>
      let t := dayTotal cs d
      let cum2 := addCounts cum t
      ⟨d, t, cum2⟩ :: timelineAux cs cum2 ds

/-- Modelled from the spec: timeline.byDay. -/
def timelineByDay (cs : List Conversation) : List TimelinePoint :=
  timelineAux cs {} (timelineDays cs)

theorem addCounts_zero_left (a : DayCounts) : addCounts {} a = a := by
  simp [addCounts]

theorem addCounts_zero_right (a : DayCounts) : addCounts a {} = a := by
  simp [addCounts]

theorem addCounts_assoc (a b c : DayCounts) :
    addCounts (addCounts a b) c = addCounts a (addCounts b c) := by
  simp [addCounts, Nat.add_assoc]

theorem foldl_addCounts_init (a b : DayCounts) (l : List DayCounts) :
    l.foldl addCounts (addCounts a b) = addCounts a (l.foldl addCounts b) := by
  induction l generalizing b with
  | nil => simp
  | cons x rest ih =>
      simp only [List.foldl_cons]
      rw [addCounts_assoc, ih]

theorem sumCounts_cons (t : DayCounts) (l : List DayCounts) :
    sumCounts (t :: l) = addCounts t (sumCounts l) := by
  unfold sumCounts
  simp only [List.foldl_cons]
  rw [show addCounts {} t = addCounts t {} by rw [addCounts_zero_left, addCounts_zero_right]]
  exact foldl_addCounts_init t {} l

theorem timelineAux_map_date (cs : List Conversation) (cum : DayCounts) (ds : List Nat) :
    (timelineAux cs cum ds).map (fun pt => pt.date) = ds := by
  induction ds generalizing cum with
  | nil => rfl
  | cons d rest ih => simp [timelineAux, ih]

theorem timelineAux_mem (cs : List Conversation) (cum : DayCounts) (ds : List Nat)
    (pt : TimelinePoint) (hpt : pt ∈ timelineAux cs cum ds) :
    pt.date ∈ ds ∧ pt.counts = dayTotal cs pt.date := by
  induction ds generalizing cum with
  | nil => cases hpt
  | cons d rest ih =>
      simp only [timelineAux, List.mem_cons] at hpt
      rcases hpt with h | h
      · subst h
        exact ⟨List.mem_cons_self _ _, rfl⟩
      · rcases ih _ h with ⟨h1, h2⟩
        exact ⟨List.mem_cons_of_mem _ h1, h2⟩

theorem timelineAux_cumulative (cs : List Conversation) (ds : List Nat) (cum : DayCounts)
    (i : Nat) (h : i < (timelineAux cs cum ds).length) (hd : i < ds.length) :
    ((timelineAux cs cum ds).get ⟨i, h⟩).cumulative
      = addCounts cum (sumCounts ((ds.take (i + 1)).map (dayTotal cs))) := by
  induction ds generalizing cum i with
  | nil => cases hd
  | cons d rest ih =>
      cases i with
      | zero =>
          simp [timelineAux, sumCounts_cons, sumCounts, addCounts_zero_left,
            addCounts_zero_right]
      | succ j =>
          have hj : j < (timelineAux cs (addCounts cum (dayTotal cs d)) rest).length := by
            simpa [timelineAux] using Nat.lt_of_succ_lt_succ h
          have hjd : j < rest.length := Nat.lt_of_succ_lt_succ hd
          have := ih (addCounts cum (dayTotal cs d)) j hj hjd
          simp only [timelineAux, List.get_cons_succ] at *
          rw [this, List.take_succ_cons, List.map_cons, sumCounts_cons, addCounts_assoc]

theorem timelineAux_map_counts (cs : List Conversation) (cum : DayCounts) (ds : List Nat) :
    (timelineAux cs cum ds).map (fun pt => pt.counts) = ds.map (dayTotal cs) := by
  induction ds generalizing cum with
  | nil => rfl
  | cons d rest ih => simp [timelineAux, ih]

theorem timelineDays_pairwise_lt (cs : List Conversation) :
    List.Pairwise (· < ·) (timelineDays cs) := by
  have htrans : ∀ a b c : Nat, (a ≤ b : Bool) = true → (b ≤ c : Bool) = true
      → (a ≤ c : Bool) = true := by
    intro a b c hab hbc
    simp only [decide_eq_true_eq] at *
    omega
  have htotal : ∀ a b : Nat, ((a ≤ b : Bool) || (b ≤ a : Bool)) = true := by
    intro a b
    simp only [Bool.or_eq_true, decide_eq_true_eq]
    omega
  have hle : List.Pairwise (fun a b : Nat => (a ≤ b : Bool) = true) (timelineDays cs) :=
    List.sorted_mergeSort htrans htotal ((cs.filterMap convStartDay).dedup)
  have hnd : (timelineDays cs).Nodup := by
    have hperm := List.mergeSort_perm ((cs.filterMap convStartDay).dedup)
      (fun a b : Nat => (a ≤ b : Bool))
    exact (List.Perm.nodup_iff hperm).mpr (List.nodup_dedup _)
  exact (hle.and hnd).imp
    (fun h => lt_of_le_of_ne (by simpa using h.1) h.2)

theorem timelineByDay_length (cs : List Conversation) :
    (timelineByDay cs).length = (timelineDays cs).length := by
  have h := timelineAux_map_date cs {} (timelineDays cs)
  calc (timelineByDay cs).length
      = ((timelineByDay cs).map (fun pt => pt.date)).length := (List.length_map _ _).symm
    _ = (timelineDays cs).length := by rw [timelineByDay] at *; rw [h]

/-- C1 — The timeline component (modelled from the spec, its producing code
being absent from the repository files) buckets conversations by the
calendar day of their start timestamp: the emitted days are strictly
chronological, every emitted day has at least one conversation starting on
it and carries that day's summed per-conversation counters, every
conversation with a start timestamp lands on some emitted day (no day with
zero conversations is emitted, no started conversation is dropped), and
each entry's cumulative counters equal the sum of the per-day counters up
to and including it. -/
theorem C1_timeline_byDay_spec (cs : List Conversation) :
    List.Pairwise (· < ·) ((timelineByDay cs).map (fun pt => pt.date))
      ∧ (∀ pt ∈ timelineByDay cs,
          pt.counts = dayTotal cs pt.date
            ∧ 0 < (cs.filter (fun c => convStartDay c = some pt.date)).length)
      ∧ (∀ c ∈ cs, ∀ d, convStartDay c = some d
          → d ∈ (timelineByDay cs).map (fun pt => pt.date))
      ∧ (∀ (i : Nat) (h : i < (timelineByDay cs).length),
          ((timelineByDay cs).get ⟨i, h⟩).cumulative
            = sumCounts (((timelineByDay cs).take (i + 1)).map (fun pt => pt.counts))) := by
  have hdates : (timelineByDay cs).map (fun pt => pt.date) = timelineDays cs :=
    timelineAux_map_date cs {} (timelineDays cs)
  refine ⟨?_, ?_, ?_, ?_⟩
  · rw [hdates]
    exact timelineDays_pairwise_lt cs
  · intro pt hpt
    rcases timelineAux_mem cs {} (timelineDays cs) pt hpt with ⟨hmem, hcounts⟩
    refine ⟨hcounts, ?_⟩
    have hdd : pt.date ∈ (cs.filterMap convStartDay).dedup := by
      have h1 : pt.date ∈ (cs.filterMap convStartDay).dedup.mergeSort
          (fun a b : Nat => (a ≤ b : Bool)) := hmem
      exact List.mem_mergeSort.mp h1
    rcases List.mem_filterMap.mp (List.mem_dedup.mp hdd) with ⟨c, hc, hcd⟩
    have hcf : c ∈ cs.filter (fun c => convStartDay c = some pt.date) :=
      List.mem_filter.mpr ⟨hc, by simp [hcd]⟩
    exact List.length_pos.mpr (List.ne_nil_of_mem hcf)
  · intro c hc d hd
    rw [hdates]
    exact List.mem_mergeSort.mpr (List.mem_dedup.mpr (List.mem_filterMap.mpr ⟨c, hc, hd⟩))
  · intro i h
    have hd : i < (timelineDays cs).length := by
      rwa [timelineByDay_length] at h
    have hcum : ((timelineByDay cs).get ⟨i, h⟩).cumulative
        = addCounts {} (sumCounts (((timelineDays cs).take (i + 1)).map (dayTotal cs))) :=
      timelineAux_cumulative cs (timelineDays cs) {} i h hd
    rw [hcum, addCounts_zero_left]
    congr 1
    show ((timelineDays cs).take (i + 1)).map (dayTotal cs)
      = ((timelineAux cs {} (timelineDays cs)).take (i + 1)).map (fun pt => pt.counts)
    have hmapc := timelineAux_map_counts cs {} (timelineDays cs)
    calc ((timelineDays cs).take (i + 1)).map (dayTotal cs)
        = ((timelineDays cs).map (dayTotal cs)).take (i + 1) := List.map_take _ _ _
      _ = ((timelineAux cs {} (timelineDays cs)).map (fun pt => pt.counts)).take (i + 1) := by
          rw [hmapc]
      _ = ((timelineAux cs {} (timelineDays cs)).take (i + 1)).map (fun pt => pt.counts) :=
          (List.map_take _ _ _).symm

/-- The overview block of generateSummary. -/
structure Overview where
  totalConversations : Nat
  totalMessages : Nat
  totalToolUses : Nat
  avgMessagesPerConversation : ℚ
  totalProjects : Nat

/-- Result shape of generateSummary (conversation-analyzer.js lines
520-559). The project-activity map is read through its key list
projectKeys. -/
structure Summary where
  overview : Overview
  toolUsage : ToolUsage
  conversationMetrics : List ConvMetric
  taskPatterns : TaskPattern → Nat
  projectActivity : String → ProjStats
  recommendations : List Recommendation
  promptingPatterns : PromptingPatterns
  conversationFlows : ConversationFlows
  toolSequences : List (String × Nat)

/-- generateSummary: run every pass and assemble the summary object;
conversationMetrics keeps only the first 20 records (metrics.slice(0, 20));
the average is totalMessages / conversations.length || 0 (0 for an empty
collection, where the division is NaN) rounded to one decimal. -/
def generateSummary (cs : List Conversation) : Summary :=
  let metrics := analyzeConversationMetrics cs
  let totalMessages := (metrics.map (fun m => m.messageCount)).sum
  let totalToolUses := (metrics.map (fun m => m.toolUseCount)).sum
  { overview :=
      { totalConversations := cs.length
        totalMessages := totalMessages
        totalToolUses := totalToolUses
        avgMessagesPerConversation :=
          roundTo1 (if cs.length = 0 then 0 else (totalMessages : ℚ) / (cs.length : ℚ))
        totalProjects := (projectKeys cs).length }
    toolUsage := analyzeToolUsage cs
    conversationMetrics := metrics.take 20
    taskPatterns := analyzeTaskPatterns cs
    projectActivity := analyzeProjectActivity cs
    recommendations :=
      generateRecommendations cs (analyzeToolUsage cs) (analyzeTaskPatterns cs)
        (analyzePromptingPatterns cs) (analyzeConversationFlows cs)
    promptingPatterns := analyzePromptingPatterns cs
    conversationFlows := analyzeConversationFlows cs
    toolSequences := analyzeToolSequences cs }

/-- C10 — generateSummary truncates conversationMetrics: the summary list is
exactly the per-conversation metric records of the first min(20, n)
conversations in input order; records past the twentieth conversation are
omitted. -/
theorem C10_summary_metrics_first_twenty (cs : List Conversation) :
    (generateSummary cs).conversationMetrics = (cs.take 20).map convMetric
      ∧ (generateSummary cs).conversationMetrics.length = min 20 cs.length := by
  constructor
  · show (analyzeConversationMetrics cs).take 20 = (cs.take 20).map convMetric
    rw [analyzeConversationMetrics, List.map_take]
  · show ((analyzeConversationMetrics cs).take 20).length = min 20 cs.length
    simp [analyzeConversationMetrics, List.length_take]

/-- JavaScript String.prototype.trim over the character list (restated so
it reduces in the kernel; whitespace here is the ASCII set the transcripts
contain). -/
def jsWS (c : Char) : Bool :=
  c = ' ' || c = '\n' || c = '\t' || c = '\r'

/-- trim: drop leading and trailing whitespace. -/
def jsTrim (s : String) : String :=
  String.mk (((s.data.dropWhile jsWS).reverse.dropWhile jsWS).reverse)

/-- parseJSONL at the record level: every line either parses to one record
or is dropped with a diagnostic (jsonl-parser.js lines 23-39). -/
def parseJSONL (lines : List (Option Msg)) : List Msg :=
  lines.filterMap id

/-- One top-level .jsonl conversation of a claude project as
getProjectConversations builds it (jsonl-parser.js lines 76-81 and 112-116,
project attached by getAllConversations line 192): the parsed records are
the messages unchanged — an empty or fully malformed file yields an empty
message list, no placeholder is synthesized on this path. -/
def claudeMainConversation (project fileBase : String) (lines : List (Option Msg)) :
    Conversation :=
  { conversationId := fileBase
    project := some project
    source := "main"
    platform := "claude"
    messages := parseJSONL lines }

/-- One item of a codex message payload content array; the text is pulled
from whichever of text / input_text / output_text is a string. -/
structure CodexItem where
  text : Option String := none
  input_text : Option String := none
  output_text : Option String := none
deriving DecidableEq, Repr

/-- The content of a codex message payload. -/
inductive CodexContent
  | str (s : String)
  | arr (items : List CodexItem)
  | other
deriving DecidableEq, Repr

/-- The first string-typed text field of one content item, or the empty
string (jsonl-parser.js lines 238-252). -/
def codexItemText (i : CodexItem) : String :=
  match i.text with
  | some t => t
  | none =>
      match i.input_text with
      | some t => t
      | none =>
          match i.output_text with
          | some t => t
          | none => ""

/-- extractTextFromCodexContent (jsonl-parser.js lines 229-255). -/
def extractTextFromCodexContent : CodexContent → String
  | .str s => jsTrim s
  | .arr items =>
      jsTrim (String.intercalate "\n" ((items.map codexItemText).filter (fun s => s ≠ "")))
  | .other => ""

/-- The payload of one codex session record. -/
structure CodexPayload where
  ptype : String := ""
  role : Option String := none
  content : CodexContent := .other
  name : Option String := none
  sessionId : Option String := none
  cwd : Option String := none
deriving DecidableEq, Repr

/-- One parsed line of a codex session .jsonl file; an absent or empty
timestamp string is modelled as none (entry.timestamp || fallback). -/
structure CodexEntry where
  etype : String
  timestamp : Option Nat := none
  payload : CodexPayload := {}
deriving DecidableEq, Repr

/-- The messages one codex entry contributes (jsonl-parser.js lines
275-318): response_item/message records with nonempty extracted text become
one text message typed by role (anything but user/assistant is system);
response_item/function_call and custom_tool_call records with a truthy name
become one assistant tool_use message; everything else contributes none. -/
def codexEntryMessages (fallback : Nat) (e : CodexEntry) : List Msg :=
  let ts := e.timestamp.getD fallback
  if e.etype = "response_item" then
    if e.payload.ptype = "message" then
      let mtype :=
        if e.payload.role = some "user" then "user"
        else if e.payload.role = some "assistant" then "assistant"
        else "system"
      let text := extractTextFromCodexContent e.payload.content
      if text ≠ "" then [{ type := mtype, timestamp := some ts, content := .str text }]
      else []
    else if e.payload.ptype = "function_call" ∨ e.payload.ptype = "custom_tool_call" then
      match jsStr e.payload.name with
      | some n =>
          [{ type := "assistant", timestamp := some ts
             content := .arr [{ itemType := "tool_use", name := some n }] }]
      | none => []
    else []
  else []

/-- parseCodexSession (jsonl-parser.js lines 257-345): an empty file yields
no conversation at all; a file whose entries yield no message gets one
synthetic system message stamped with the file modification time. The
diagnostic metadata counters are not modelled. -/
def parseCodexSession (fallback : Nat) (fileBase : String) (entries : List CodexEntry) :
    Option Conversation :=
  if entries.isEmpty then none
  else
    let meta := entries.find? (fun e => e.etype = "session_meta")
    let pay := (meta.map (fun e => e.payload)).getD {}
    let msgs := entries.flatMap (codexEntryMessages fallback)
    let msgs :=
      if msgs.isEmpty then
        [{ type := "system", timestamp := some fallback, content := .str "Session metadata only" }]
      else msgs
    some
      { conversationId := (jsStr pay.sessionId).getD fileBase
        project := some ((jsStr pay.cwd).getD "unknown")
        source := "main"
        platform := "codex"
        messages := msgs }

/-- One line of a cursor transcript block, pre-tokenized: a tool-call
marker line carrying the captured tool name, a tool-result marker line, or
a plain text line (already stripped of user_query wrapper tags); the
character-level regular expressions of the source are outside the shallow
embedding. -/
inductive CursorLine
  | toolCallLine (name : String)
  | toolResultLine
  | plainLine (s : String)
deriving DecidableEq, Repr

/-- One role block as parseCursorTranscriptBlocks delimits them. -/
structure CursorBlock where
  role : String
  lines : List CursorLine
deriving DecidableEq, Repr

/-- The tool names of one block (matched only in assistant blocks,
jsonl-parser.js line 431-432). -/
def blockTools (b : CursorBlock) : List String :=
  if b.role = "assistant" then
    b.lines.filterMap (fun l => match l with | .toolCallLine n => some n | _ => none)
  else []

/-- The residual plain text of one block: lines that are not tool-call or
tool-result markers, joined and trimmed (lines 445-449). -/
def blockPlainText (b : CursorBlock) : String :=
  jsTrim (String.intercalate "\n"
    (b.lines.filterMap (fun l => match l with | .plainLine s => some s | _ => none)))

/-- The tool messages of one block: the k-th tool call is stamped
mtime + blockIndex + k + 1 (lines 434-442). -/
def cursorToolMessages (m idx : Nat) : Nat → List String → List Msg
  | _, [] => []
  | ti, n :: rest =>
      { type := "assistant", timestamp := some (m + idx + ti + 1)
        content := .arr [{ itemType := "tool_use", name := some n }] }
        :: cursorToolMessages m idx (ti + 1) rest

/-- All messages of one block: the tool messages first, then — when the
residual text is nonempty — one text message stamped mtime + blockIndex
(lines 427-458; note the text message is appended after the tool messages
but carries the smaller timestamp). -/
def cursorBlockMessages (m idx : Nat) (b : CursorBlock) : List Msg :=
  cursorToolMessages m idx 0 (blockTools b)
    ++ (if blockPlainText b ≠ "" then
          [{ type := b.role, timestamp := some (m + idx), content := .str (blockPlainText b) }]
        else [])

/-- The forEach over blocks with its running index. -/
def cursorMessagesAux (m : Nat) : Nat → List CursorBlock → List Msg
  | _, [] => []
  | idx, b :: bs => cursorBlockMessages m idx b ++ cursorMessagesAux m (idx + 1) bs

/-- parseCursorTranscript (jsonl-parser.js lines 407-481): always yields a
conversation; when no block produced a message, one synthetic system
message stamped with the file modification time. -/
def parseCursorTranscript (m : Nat) (project convId : String) (blocks : List CursorBlock) :
    Conversation :=
  let msgs := cursorMessagesAux m 0 blocks
  let msgs :=
    if msgs.isEmpty then
      [{ type := "system", timestamp := some m, content := .str "Transcript metadata only" }]
    else msgs
  { conversationId := convId
    project := some (if project = "" then "unknown" else project)
    source := "main"
    platform := "cursor"
    messages := msgs }

/-- C2 counterexample — the claim fails on the claude reader and on empty
codex files: an empty claude project .jsonl file yields a Conversation whose
message list is empty (no synthetic system message on that path), and an
empty codex session file yields no Conversation at all rather than one with
a synthetic message. -/
theorem C2_counterexample_empty_claude_file :
    ¬ (1 ≤ (claudeMainConversation "proj" "empty" []).messages.length)
      ∧ parseCodexSession 0 "empty" [] = none := by
  constructor
  · decide
  · rfl

/-- C2 (amended) — the minimum-one-message invariant holds for the codex
and cursor readers: every Conversation parseCodexSession yields has at
least one message (it drops empty files instead of synthesizing), and every
Conversation parseCursorTranscript yields has at least one message; the
claude reader can yield an empty message list for an empty source file. -/
theorem C2_codex_cursor_min_one_message :
    (∀ (fallback : Nat) (fileBase : String) (entries : List CodexEntry)
        (conv : Conversation),
        parseCodexSession fallback fileBase entries = some conv
          → 1 ≤ conv.messages.length)
      ∧ (∀ (m : Nat) (project convId : String) (blocks : List CursorBlock),
          1 ≤ (parseCursorTranscript m project convId blocks).messages.length) := by
  constructor
  · intro fallback fileBase entries conv hparse
    by_cases hempty : entries.isEmpty
    · simp [parseCodexSession, hempty] at hparse
    · simp only [parseCodexSession, hempty, if_false] at hparse
      by_cases hmsgs : (entries.flatMap (codexEntryMessages fallback)).isEmpty
      · simp only [hmsgs, if_true] at hparse
        cases hparse
        simp
      · simp only [hmsgs, if_false] at hparse
        cases hparse
        show 1 ≤ (entries.flatMap (codexEntryMessages fallback)).length
        have : entries.flatMap (codexEntryMessages fallback) ≠ [] := by
          simpa [List.isEmpty_iff] using hmsgs
        have hlen : 0 < (entries.flatMap (codexEntryMessages fallback)).length :=
          List.length_pos.mpr this
        omega
  · intro m project convId blocks
    by_cases hmsgs : (cursorMessagesAux m 0 blocks).isEmpty
    · simp [parseCursorTranscript, hmsgs]
    · simp only [parseCursorTranscript, hmsgs, if_false]
      show 1 ≤ (cursorMessagesAux m 0 blocks).length
      have : cursorMessagesAux m 0 blocks ≠ [] := by
        simpa [List.isEmpty_iff] using hmsgs
      have hlen : 0 < (cursorMessagesAux m 0 blocks).length := List.length_pos.mpr this
      omega

/-- C2 witness — the amended theorem applied to a metadata-only codex file
(one session_meta record, synthetic message) and to an empty cursor
transcript. -/
theorem C2_codex_cursor_min_one_message_witness :
    1 ≤ (Conversation.mk "f" (some "unknown") "main" "codex"
        [Msg.mk "system" (some 7) (.str "Session metadata only")]).messages.length
      ∧ 1 ≤ (parseCursorTranscript 0 "p" "t" []).messages.length :=
  ⟨C2_codex_cursor_min_one_message.1 7 "f" [{ etype := "session_meta" }]
      (Conversation.mk "f" (some "unknown") "main" "codex"
        [Msg.mk "system" (some 7) (.str "Session metadata only")]) (by decide),
    C2_codex_cursor_min_one_message.2 0 "p" "t" []⟩

/-- The non-decreasing check over a timestamp list, as the claim reads it. -/
def nondecreasing : List Nat → Bool
  | [] => true
  | [_] => true
  | a :: b :: rest => a ≤ b && nondecreasing (b :: rest)

/-- Timestamps of a conversation are non-decreasing in message-list order
(messages without a timestamp are skipped). -/
def convTsNondecreasing (c : Conversation) : Bool :=
  nondecreasing (convTimestamps c)

theorem nondecreasing_iff_pairwise :
    ∀ l : List Nat, nondecreasing l = true ↔ List.Pairwise (· ≤ ·) l
  | [] => by simp [nondecreasing]
  | [a] => by simp [nondecreasing]
  | a :: b :: rest => by
      rw [nondecreasing, Bool.and_eq_true, decide_eq_true_eq,
        nondecreasing_iff_pairwise (b :: rest)]
      constructor
      · rintro ⟨hab, hp⟩
        rw [List.pairwise_cons]
        refine ⟨?_, hp⟩
        intro x hx
        rcases List.mem_cons.mp hx with rfl | hx'
        · exact hab
        · exact le_trans hab (List.rel_of_pairwise_cons hp hx')
      · intro h
        rw [List.pairwise_cons] at h
        exact ⟨h.1 b (List.mem_cons_self _ _), h.2⟩

/-- C3 counterexample — a cursor transcript whose single assistant block
contains one tool-call marker followed by plain text: the tool message is
emitted first with timestamp mtime+1, the text message after it with the
smaller timestamp mtime, so the message timestamps decrease. -/
theorem C3_counterexample_cursor_mixed_block :
    convTsNondecreasing (parseCursorTranscript 0 "p" "t"
        [{ role := "assistant", lines := [.toolCallLine "Read", .plainLine "hello"] }])
      = false
      ∧ convTimestamps (parseCursorTranscript 0 "p" "t"
          [{ role := "assistant", lines := [.toolCallLine "Read", .plainLine "hello"] }])
        = [1, 0] := by
  constructor
  · decide
  · decide

theorem codexEntryMessages_ts (fallback : Nat) (e : CodexEntry) :
    ((codexEntryMessages fallback e).filterMap (fun m => m.timestamp)) = []
      ∨ ((codexEntryMessages fallback e).filterMap (fun m => m.timestamp))
          = [e.timestamp.getD fallback] := by
  unfold codexEntryMessages
  by_cases h1 : e.etype = "response_item"
  · simp only [h1, if_true]
    by_cases h2 : e.payload.ptype = "message"
    · simp only [h2, if_true]
      by_cases h3 : extractTextFromCodexContent e.payload.content = ""
      · left
        simp [h3]
      · right
        simp [h3]
    · simp only [h2, if_false]
      by_cases h4 : e.payload.ptype = "function_call" ∨ e.payload.ptype = "custom_tool_call"
      · simp only [h4, if_true]
        cases hn : jsStr e.payload.name with
        | none => left; simp
        | some n => right; simp
      · left
        simp [h4]
  · left
    simp [h1]

theorem codex_ts_sublist (fallback : Nat) (entries : List CodexEntry) :
    ((entries.flatMap (codexEntryMessages fallback)).filterMap
        (fun m => m.timestamp)).Sublist
      (entries.map (fun e => e.timestamp.getD fallback)) := by
  induction entries with
  | nil => simp
  | cons e rest ih =>
      simp only [List.flatMap_cons, List.filterMap_append, List.map_cons]
      rcases codexEntryMessages_ts fallback e with h | h
      · rw [h, List.nil_append]
        exact ih.cons _
      · rw [h, List.singleton_append]
        exact ih.cons₂ _

theorem cursor_ts_bound_chain (m : Nat) (blocks : List CursorBlock) :
    ∀ idx : Nat,
      (∀ b ∈ blocks, (blockTools b).length + (if blockPlainText b = "" then 0 else 1) ≤ 1)
      → (∀ t ∈ (cursorMessagesAux m idx blocks).filterMap (fun x => x.timestamp), m + idx ≤ t)
        ∧ List.Pairwise (· ≤ ·)
            ((cursorMessagesAux m idx blocks).filterMap (fun x => x.timestamp)) := by
  induction blocks with
  | nil =>
      intro idx _
      simp [cursorMessagesAux]
  | cons b bs ih =>
      intro idx hb
      have hbb := hb b (List.mem_cons_self _ _)
      have hrest := ih (idx + 1) (fun x hx => hb x (List.mem_cons_of_mem _ hx))
      simp only [cursorMessagesAux, List.filterMap_append]
      cases htools : blockTools b with
      | nil =>
          by_cases hp : blockPlainText b = ""
          · have htsb : (cursorBlockMessages m idx b).filterMap (fun x => x.timestamp) = [] := by
              simp [cursorBlockMessages, htools, hp, cursorToolMessages]
            rw [htsb, List.nil_append]
            refine ⟨fun t ht => ?_, hrest.2⟩
            have := hrest.1 t ht
            omega
          · have htsb : (cursorBlockMessages m idx b).filterMap (fun x => x.timestamp)
                = [m + idx] := by
              simp [cursorBlockMessages, htools, hp, cursorToolMessages]
            rw [htsb, List.singleton_append]
            constructor
            · intro t ht
              rcases List.mem_cons.mp ht with rfl | ht'
              · omega
              · have := hrest.1 t ht'
                omega
            · rw [List.pairwise_cons]
              refine ⟨fun x hx => ?_, hrest.2⟩
              have := hrest.1 x hx
              omega
      | cons n rest2 =>
          have hr2 : rest2 = [] := by
            cases rest2 with
            | nil => rfl
            | cons y ys =>
                rw [htools] at hbb
                simp at hbb
                omega
          subst hr2
          have hp : blockPlainText b = "" := by
            by_contra hp
            rw [htools] at hbb
            simp [hp] at hbb
          have htsb : (cursorBlockMessages m idx b).filterMap (fun x => x.timestamp)
              = [m + idx + 1] := by
            simp [cursorBlockMessages, htools, hp, cursorToolMessages]
          rw [htsb, List.singleton_append]
          constructor
          · intro t ht
            rcases List.mem_cons.mp ht with rfl | ht'
            · omega
            · have := hrest.1 t ht'
              omega
          · rw [List.pairwise_cons]
            refine ⟨fun x hx => ?_, hrest.2⟩
            have := hrest.1 x hx
            omega

/-- C3 (amended) — the non-decreasing-timestamps invariant holds for the
codex reader whenever the source entries carry non-decreasing effective
timestamps (entry timestamp or the file fallback), because each entry emits
at most one message stamped with that entry's timestamp; and for the cursor
reader whenever every block emits at most one message (at most one tool-call
marker and never a tool-call marker together with residual plain text in one
block). As stated for every conversation it fails: the synthesized cursor
offsets place a later-stamped tool message before the earlier-stamped text
message of the same block. -/
theorem C3_timestamps_nondecreasing_amended :
    (∀ (fallback : Nat) (fileBase : String) (entries : List CodexEntry)
        (conv : Conversation),
        parseCodexSession fallback fileBase entries = some conv
          → nondecreasing (entries.map (fun e => e.timestamp.getD fallback)) = true
          → convTsNondecreasing conv = true)
      ∧ (∀ (m : Nat) (project convId : String) (blocks : List CursorBlock),
          (∀ b ∈ blocks,
              (blockTools b).length + (if blockPlainText b = "" then 0 else 1) ≤ 1)
            → convTsNondecreasing (parseCursorTranscript m project convId blocks) = true) := by
  constructor
  · intro fallback fileBase entries conv hparse hchain
    by_cases hempty : entries.isEmpty
    · simp [parseCodexSession, hempty] at hparse
    · simp only [parseCodexSession, hempty, if_false] at hparse
      by_cases hmsgs : (entries.flatMap (codexEntryMessages fallback)).isEmpty
      · simp only [hmsgs, if_true] at hparse
        cases hparse
        simp [convTsNondecreasing, convTimestamps, nondecreasing]
      · simp only [hmsgs, if_false] at hparse
        cases hparse
        rw [convTsNondecreasing, nondecreasing_iff_pairwise]
        show List.Pairwise (· ≤ ·)
          ((entries.flatMap (codexEntryMessages fallback)).filterMap (fun m => m.timestamp))
        have hP : List.Pairwise (· ≤ ·) (entries.map (fun e => e.timestamp.getD fallback)) :=
          (nondecreasing_iff_pairwise _).mp hchain
        exact hP.sublist (codex_ts_sublist fallback entries)
  · intro m project convId blocks hblocks
    by_cases hmsgs : (cursorMessagesAux m 0 blocks).isEmpty
    · simp only [parseCursorTranscript, hmsgs, if_true]
      simp [convTsNondecreasing, convTimestamps, nondecreasing]
    · simp only [parseCursorTranscript, hmsgs, if_false]
      rw [convTsNondecreasing, nondecreasing_iff_pairwise]
      show List.Pairwise (· ≤ ·)
        ((cursorMessagesAux m 0 blocks).filterMap (fun x => x.timestamp))
      exact (cursor_ts_bound_chain m blocks 0 hblocks).2

/-- C3 witness — the amended theorem applied to a two-entry codex session
with increasing timestamps and to a two-block cursor transcript with one
message per block. -/
theorem C3_timestamps_nondecreasing_witness :
    convTsNondecreasing
        (Conversation.mk "f2" (some "unknown") "main" "codex"
          [Msg.mk "user" (some 3) (.str "hello"), Msg.mk "assistant" (some 5) (.str "hi")])
      = true
      ∧ convTsNondecreasing (parseCursorTranscript 4 "p" "t"
          [{ role := "user", lines := [.plainLine "hello"] },
            { role := "assistant", lines := [.toolCallLine "Read"] }]) = true :=
  ⟨C3_timestamps_nondecreasing_amended.1 0 "f2"
      [{ etype := "response_item", timestamp := some 3
         payload := { ptype := "message", role := some "user", content := .str "hello" } },
        { etype := "response_item", timestamp := some 5
          payload := { ptype := "message", role := some "assistant", content := .str "hi" } }]
      (Conversation.mk "f2" (some "unknown") "main" "codex"
        [Msg.mk "user" (some 3) (.str "hello"), Msg.mk "assistant" (some 5) (.str "hi")])
      (by decide) (by decide),
    C3_timestamps_nondecreasing_amended.2 4 "p" "t"
      [{ role := "user", lines := [.plainLine "hello"] },
        { role := "assistant", lines := [.toolCallLine "Read"] }]
      (by decide)⟩

/-- The configured sources of the server (server.js line 8). -/
inductive Source
  | claude
  | codex
  | cursor
deriving DecidableEq, Repr

/-- SOURCES = ['claude', 'codex', 'cursor']. -/
def SOURCES : List Source :=
  [.claude, .codex, .cursor]

/-- The display name of a source. -/
def sourceName : Source → String
  | .claude => "claude"
  | .codex => "codex"
  | .cursor => "cursor"

/-- One raw message as the Schema Profiler sees it: its top-level field
names (Object.keys). -/
structure RawMsg where
  fields : List String := []
deriving DecidableEq, Repr

/-- One raw conversation as the Schema Profiler sees it: its top-level
field names, its metadata field names when metadata is a plain object, and
its messages. -/
structure RawConv where
  fields : List String := []
  metadataFields : Option (List String) := none
  messages : List RawMsg := []
deriving DecidableEq, Repr

/-- Object.entries(counts).sort((a, b) => b[1] - a[1]): stable descending
sort of the insertion-ordered counter entries. -/
def sortCountMap (counts : List (String × Nat)) : List (String × Nat) :=
  counts.mergeSort (fun a b => b.2 ≤ a.2)

/-- The field-frequency profile of one source (server.js lines 94-155;
fields the disjointness claim does not read — message types, content shapes,
content item types, tool names — are tallied the same way and omitted
here). -/
structure SourceSchema where
  source : String
  conversationCount : Nat
  messageCount : Nat
  conversationFields : List (String × Nat)
  metadataFields : List (String × Nat)
  messageFields : List (String × Nat)
  uniqueConversationFields : List String
  uniqueMetadataFields : List String
  uniqueMessageFields : List String
deriving DecidableEq, Repr

/-- createSourceSchema: tally the field occurrences and sort each counter
table by count, descending; the unique-field lists start empty. -/
def createSourceSchema (name : String) (convs : List RawConv) : SourceSchema :=
  { source := name
    conversationCount := convs.length
    messageCount := (convs.map (fun c => c.messages.length)).sum
    conversationFields :=
      sortCountMap ((convs.flatMap (fun c => c.fields)).foldl bumpAssoc [])
    metadataFields :=
      sortCountMap ((convs.flatMap (fun c => c.metadataFields.getD [])).foldl bumpAssoc [])
    messageFields :=
      sortCountMap
        ((convs.flatMap (fun c => c.messages.flatMap (fun mm => mm.fields))).foldl bumpAssoc [])
    uniqueConversationFields := []
    uniqueMetadataFields := []
    uniqueMessageFields := [] }

/-- createUniqueFieldList (server.js lines 157-168): the field names of the
selected table of one source that occur in no other configured source,
deduplicated and sorted (the JavaScript Set preserves first occurrence; the
final sort makes the iteration order irrelevant). -/
def createUniqueFieldList (raw : Source → SourceSchema) (src : Source)
    (selector : SourceSchema → List (String × Nat)) : List String :=
  let own := (selector (raw src)).map (fun it => it.1)
  let others := (SOURCES.filter (fun o => o ≠ src)).flatMap
    (fun o => (selector (raw o)).map (fun it => it.1))
  (own.dedup.filter (fun g => g ∉ others)).mergeSort (fun a b => a ≤ b)

/-- The snapshot buildSchemaSnapshot returns. -/
structure SchemaSnapshot where
  bySource : Source → SourceSchema
  all : SourceSchema

/-- buildSchemaSnapshot (server.js lines 170-191): per-source schemas with
their unique-field lists filled in, and an aggregate schema over all
conversations whose unique-field lists stay empty. -/
def buildSchemaSnapshot (data : Source → List RawConv) (allConvs : List RawConv) :
    SchemaSnapshot :=
  let raw : Source → SourceSchema := fun s => createSourceSchema (sourceName s) (data s)
  { bySource := fun s =>
      { raw s with
          uniqueConversationFields := createUniqueFieldList raw s (fun sc => sc.conversationFields)
          uniqueMetadataFields := createUniqueFieldList raw s (fun sc => sc.metadataFields)
          uniqueMessageFields := createUniqueFieldList raw s (fun sc => sc.messageFields) }
    all := createSourceSchema "all" allConvs }

theorem mem_SOURCES (s : Source) : s ∈ SOURCES := by
  cases s <;> decide

theorem createUniqueFieldList_disjoint (raw : Source → SourceSchema)
    (selector : SourceSchema → List (String × Nat)) (X Y : Source) (hXY : X ≠ Y)
    (f : String) (hfX : f ∈ createUniqueFieldList raw X selector) :
    f ∉ createUniqueFieldList raw Y selector := by
  intro hfY
  have hX := List.mem_filter.mp (List.mem_mergeSort.mp hfX)
  have hY := List.mem_filter.mp (List.mem_mergeSort.mp hfY)
  have hfownX : f ∈ (selector (raw X)).map (fun it => it.1) := List.mem_dedup.mp hX.1
  have hnotY : f ∉ (SOURCES.filter (fun o => o ≠ Y)).flatMap
      (fun o => (selector (raw o)).map (fun it => it.1)) := of_decide_eq_true hY.2
  exact hnotY (List.mem_flatMap.mpr
    ⟨X, List.mem_filter.mpr ⟨mem_SOURCES X, by simp [hXY]⟩, hfownX⟩)

/-- C9 — for any two distinct configured sources the Schema Profiler's
unique-field lists are disjoint, for each of the three field tables
(conversation, metadata and message fields) and every input collection: a
field name in one source's unique list never appears in another source's
corresponding unique list. -/
theorem C9_unique_fields_disjoint (data : Source → List RawConv) (allConvs : List RawConv)
    (X Y : Source) (hXY : X ≠ Y) (f : String) :
    (f ∈ ((buildSchemaSnapshot data allConvs).bySource X).uniqueConversationFields
        → f ∉ ((buildSchemaSnapshot data allConvs).bySource Y).uniqueConversationFields)
      ∧ (f ∈ ((buildSchemaSnapshot data allConvs).bySource X).uniqueMetadataFields
          → f ∉ ((buildSchemaSnapshot data allConvs).bySource Y).uniqueMetadataFields)
      ∧ (f ∈ ((buildSchemaSnapshot data allConvs).bySource X).uniqueMessageFields
          → f ∉ ((buildSchemaSnapshot data allConvs).bySource Y).uniqueMessageFields) := by
  refine ⟨?_, ?_, ?_⟩ <;>
    exact fun h => createUniqueFieldList_disjoint _ _ X Y hXY f h

/-- C9 witness — the disjointness instance for claude versus codex on a
collection where only claude contributes a conversation field. -/
theorem C9_unique_fields_disjoint_witness :
    (Source.claude ≠ Source.codex)
      ∧ (("claudeOnly" ∈ ((buildSchemaSnapshot
            (fun s => match s with
              | .claude => [{ fields := ["claudeOnly"] }]
              | _ => []) []).bySource Source.claude).uniqueConversationFields
          → "claudeOnly" ∉ ((buildSchemaSnapshot
              (fun s => match s with
                | .claude => [{ fields := ["claudeOnly"] }]
                | _ => []) []).bySource Source.codex).uniqueConversationFields)
        ∧ ("claudeOnly" ∈ ((buildSchemaSnapshot
              (fun s => match s with
                | .claude => [{ fields := ["claudeOnly"] }]
                | _ => []) []).bySource Source.claude).uniqueMetadataFields
            → "claudeOnly" ∉ ((buildSchemaSnapshot
                (fun s => match s with
                  | .claude => [{ fields := ["claudeOnly"] }]
                  | _ => []) []).bySource Source.codex).uniqueMetadataFields)
        ∧ ("claudeOnly" ∈ ((buildSchemaSnapshot
              (fun s => match s with
                | .claude => [{ fields := ["claudeOnly"] }]
                | _ => []) []).bySource Source.claude).uniqueMessageFields
            → "claudeOnly" ∉ ((buildSchemaSnapshot
                (fun s => match s with
                  | .claude => [{ fields := ["claudeOnly"] }]
                  | _ => []) []).bySource Source.codex).uniqueMessageFields)) :=
  ⟨by decide,
    C9_unique_fields_disjoint
      (fun s => match s with
        | .claude => [{ fields := ["claudeOnly"] }]
        | _ => []) [] Source.claude Source.codex (by decide) "claudeOnly"⟩
